import Mathlib

/-!
# Verification of the Mercari recommendation pipeline

A shallow embedding of `src/mercari_agent/recommender.py` (data model,
filters, scores, deduplication, the two fan-out phases of
`RecommendationService.recommend`) together with the candidate-payload
validation of `src/mercari_agent/agent.py`.

Modelling conventions:
* Python `float` arithmetic is modelled exactly over `ℚ` (the score weights
  `1.2`, `1.3`, `0.7`, `0.25`, `0.5` become `6/5`, `13/10`, `7/10`, `1/4`,
  `1/2`); rounding of IEEE doubles is ignored.
* Python `int` is `ℤ`; `int(x)` truncation of the nonneg value
  `max_price * 0.25` is integer division by 4.
* Python truthiness is made explicit: an `Optional` string is truthy iff it
  is `some s` with `s ≠ ""`, an `Optional` int is truthy iff it is `some n`
  with `n ≠ 0`, an `Optional` bool is truthy iff it is `some true`.
* `asyncio.gather(..., return_exceptions=False)` over coroutines that can
  raise is modelled as a left-to-right `Except` traversal (`gatherSearch`):
  the first failing task's error propagates and the joined results are
  otherwise returned in task order, which is exactly the caller-observable
  behaviour of the barrier.
* The enrichment phase calls `MercapiClient.enrich_item`, which catches every
  exception of the underlying `full_item()` fetch and returns `None`; it is
  modelled by `enrichItem`, and the enrichment fan-out of `recommend` takes
  an abstract `RawSearchItem → Option RawFullItem` function.
* Python's `sorted(xs, key=k, reverse=True)` is the unique stable descending
  sort by `k`; it is modelled by insertion sort with the total preorder
  `fun a b => k b ≤ k a`, which is stable in the same sense.
-/

/-- `models.SearchRequest`: high-level search request built from tool args. -/
structure SearchRequest where
  query_text : String
  min_price : Option ℤ := none
  max_price : Option ℤ := none
  shipping_preference : Option String := none
  location : Option String := none
  brand : Option String := none
deriving DecidableEq, Repr

/-- A raw search result as consumed by the recommender: the fields of
mercapi's `SearchResultItem` that `recommend`, `_parse_shallow` and the
dedup loop read (`id_`, `name`, `price`, `item_type`, `created`).
`created` is already the ISO string `created.isoformat()` would produce;
`none` models a falsy/absent timestamp. -/
structure RawSearchItem where
  id_ : String
  name : String
  price : ℤ
  item_type : Option String := none
  created : Option String := none
deriving DecidableEq, Repr

/-- Seller sub-record of a full mercapi item (`raw.seller`). -/
structure RawSeller where
  star_rating_score : ℚ
  num_sell_items : ℤ
deriving DecidableEq, Repr

/-- Condition sub-record of a full mercapi item (`raw.item_condition`). -/
structure RawCondition where
  name : String
deriving DecidableEq, Repr

/-- Shipping payer sub-record of a full mercapi item (`raw.shipping_payer`). -/
structure RawShippingPayer where
  code : String
deriving DecidableEq, Repr

/-- Shipping duration sub-record of a full mercapi item
(`raw.shipping_duration`). -/
structure RawShippingDuration where
  min_days : ℤ
  max_days : ℤ
deriving DecidableEq, Repr

/-- Category sub-record of a full mercapi item (`raw.item_category`). -/
structure RawCategory where
  name : String
deriving DecidableEq, Repr

/-- A fully populated raw item, as returned by `raw_item.full_item()`: the
fields `_merge_full` reads.  `none` models an absent/falsy sub-record. -/
structure RawFullItem where
  description : Option String := none
  seller : Option RawSeller := none
  item_condition : Option RawCondition := none
  created : Option String := none
  shipping_payer : Option RawShippingPayer := none
  shipping_duration : Option RawShippingDuration := none
  item_category : Option RawCategory := none
deriving DecidableEq, Repr

/-- `models.ProductShallow`: lightweight product from Mercari search. -/
structure ProductShallow where
  id : String
  name : String
  price_jpy : ℤ
  item_type : Option String := none
  seller_rating : Option ℚ := none
  seller_sales_count : Option ℤ := none
  condition_label : Option String := none
  url : Option String := none
  created_at : Option String := none
deriving DecidableEq, Repr

/-- `models.ProductFull`: full product details (extends `ProductShallow` by
field inheritance, as the Python dataclass does).  `attributes` is an
`Optional[dict]` that the pipeline never populates; `Option Unit` keeps the
slot. -/
structure ProductFull extends ProductShallow where
  description : Option String := none
  category : Option String := none
  attributes : Option Unit := none
  shipping_fee_included : Option Bool := none
  shipping_days_min : Option ℤ := none
  shipping_days_max : Option ℤ := none
deriving DecidableEq, Repr

/-- The configuration surface of `RecommendationService.__init__`, with the
defaults of `config.py` (`MAX_SHALLOW = 120`, `MAX_CANDIDATES = 60`,
`MAX_RETURN = 10`, `MIN_SELLER_RATING = 0.0`, `max_price_jpy = None`). -/
structure Config where
  max_shallow : ℕ := 120
  max_candidates : ℕ := 60
  max_return : ℕ := 10
  min_seller_rating : ℚ := 0
  max_price_jpy : Option ℤ := none

/-- One entry of the `candidates` JSON payload the analyst LLM passes to the
`get_recommendations` tool (`agent.py`).  `keywords = none` covers both an
absent key and a non-string JSON value (`not isinstance(keywords, str)`). -/
structure CandidatePayload where
  keywords : Option String := none
  min_price_jpy : Option ℤ := none
  max_price_jpy : Option ℤ := none
  shipping_preference : Option String := none
  location : Option String := none
  brand : Option String := none
deriving DecidableEq, Repr

/-- Python `str.strip()`: drop whitespace from both ends. -/
def pyStrip (s : String) : String :=
  String.mk (((s.data.dropWhile Char.isWhitespace).reverse.dropWhile
    Char.isWhitespace).reverse)

/-- Python `str.lower()`, character by character. -/
def pyLower (s : String) : String :=
  String.mk (s.data.map Char.toLower)

/-- Python `pat in s` substring test, on the character lists. -/
def charsContain (pat : List Char) : List Char → Bool
  | [] => pat.isEmpty
  | c :: cs => pat.isPrefixOf (c :: cs) || charsContain pat cs

/-- The character class of `utils.tokenize`'s regex
`[A-Za-z0-9ぁ-んァ-ン一-龥ー]`. -/
def isTokenChar (c : Char) : Bool :=
  (('a' ≤ c && c ≤ 'z') || ('A' ≤ c && c ≤ 'Z') || ('0' ≤ c && c ≤ '9')
    || ('ぁ' ≤ c && c ≤ 'ん') || ('ァ' ≤ c && c ≤ 'ン')
    || ('一' ≤ c && c ≤ '龥') || (c = 'ー'))

/-- `re.findall` of maximal runs of token characters; `acc` is the current
run, reversed. -/
def tokenRuns (acc : List Char) : List Char → List String
  | [] => if acc.isEmpty then [] else [String.mk acc.reverse]
  | c :: cs =>
    if isTokenChar c then tokenRuns (c :: acc) cs
    else if acc.isEmpty then tokenRuns [] cs
    else String.mk acc.reverse :: tokenRuns [] cs

/-- The first-seen-order dedup loop of `utils.tokenize` (`seen` set as a
list). -/
def dedupStrings (seen : List String) : List String → List String
  | [] => []
  | t :: ts =>
    if t ∈ seen then dedupStrings seen ts
    else t :: dedupStrings (t :: seen) ts

/-- `utils.tokenize`: lowercase, extract token runs, dedup keeping
first-occurrence order. -/
def tokenize (text : String) : List String :=
  dedupStrings [] (tokenRuns [] (pyLower text).data)

/-- The pooling/dedup loop of `RecommendationService.recommend`
(lines 118-127), over the flattened per-request results: skip items with a
falsy `id_` or an already-seen `id_`, keep the first occurrence otherwise.
The `seen_ids` set is modelled as a list. -/
def dedupRaw (seen : List String) : List RawSearchItem → List RawSearchItem
  | [] => []
  | x :: xs =>
    if x.id_ = "" ∨ x.id_ ∈ seen then dedupRaw seen xs
    else x :: dedupRaw (x.id_ :: seen) xs

/-- Pool and deduplicate the per-candidate result lists, preserving candidate
order then within-candidate order (the two nested `for` loops). -/
def dedupPool (per : List (List RawSearchItem)) : List RawSearchItem :=
  dedupRaw [] per.flatten

/-- `RecommendationService._parse_shallow`. -/
def parseShallow (raw : RawSearchItem) : ProductShallow :=
  { id := raw.id_
    name := raw.name
    price_jpy := raw.price
    item_type := raw.item_type
    seller_rating := none
    seller_sales_count := none
    condition_label := none
    url := none
    created_at := raw.created }

/-- `RecommendationService._should_include`, with Python truthiness spelled
out: `p.item_type and …` needs a non-`None` nonempty tag,
`self.max_price_jpy and …` needs a non-`None` nonzero bound, and
`p.seller_rating or 0.0` is `getD 0`. -/
def shouldInclude (cfg : Config) (p : ProductShallow) : Bool :=
  if p.item_type.getD "" ≠ "" ∧ p.item_type.getD "" ≠ "ITEM_TYPE_MERCARI" then
    false
  else if cfg.max_price_jpy.getD 0 ≠ 0 ∧
      cfg.max_price_jpy.getD 0 < p.price_jpy then
    false
  else if cfg.max_price_jpy.getD 0 ≠ 0 ∧ 10000 ≤ cfg.max_price_jpy.getD 0 ∧
      p.price_jpy < max 500 (cfg.max_price_jpy.getD 0 / 4) then
    false
  else if p.seller_rating.getD 0 < cfg.min_seller_rating then
    false
  else
    true

/-- `RecommendationService._relevance_score`: fraction of current tokens that
occur as a substring of the lowercased item name. -/
def relevanceScore (toks : List String) (p : ProductShallow) : ℚ :=
  if toks = [] then 0
  else
    let name := pyLower p.name
    let hits := toks.countP (fun t => t ≠ "" && charsContain t.data name.data)
    (hits : ℚ) / (max toks.length 1 : ℚ)

/-- `RecommendationService._price_score`: 0 unless a truthy global max price
is configured, else a linear sweet-spot score around 70% of the budget. -/
def priceScore (cfg : Config) (p : ProductShallow) : ℚ :=
  if cfg.max_price_jpy.getD 0 = 0 then 0
  else
    let target : ℚ := max 1 ((7 : ℚ) / 10 * (cfg.max_price_jpy.getD 0 : ℚ))
    max 0 (1 - |(p.price_jpy : ℚ) - target| / target)

/-- `RecommendationService._shallow_score`:
`relevance * 4.0 + rating * 1.2 + price_score * 1.3`. -/
def shallowScore (cfg : Config) (toks : List String) (p : ProductShallow) : ℚ :=
  relevanceScore toks p * 4 + p.seller_rating.getD 0 * (6 / 5)
    + priceScore cfg p * (13 / 10)

/-- `RecommendationService._merge_full`: overlay enriched fields on the
shallow record and attach the full-item fields. -/
def mergeFull (raw : RawFullItem) (sh : ProductShallow) : ProductFull :=
  let sh1 := match raw.seller with
    | some s =>
      { sh with seller_rating := some s.star_rating_score
                seller_sales_count := some s.num_sell_items }
    | none => sh
  let sh2 := match raw.item_condition with
    | some c => { sh1 with condition_label := some c.name }
    | none => sh1
  let sh3 := match raw.created with
    | some c => { sh2 with created_at := some c }
    | none => sh2
  let sfi : Bool := match raw.shipping_payer with
    | some sp => if sp.code ≠ "" then decide (sp.code = "seller") else false
    | none => false
  { toProductShallow := sh3
    description := raw.description
    category := raw.item_category.map RawCategory.name
    attributes := none
    shipping_fee_included := some sfi
    shipping_days_min := raw.shipping_duration.map RawShippingDuration.min_days
    shipping_days_max := raw.shipping_duration.map RawShippingDuration.max_days }

/-- `RecommendationService._deep_score`: shallow score of the (inherited)
shallow fields plus the free-shipping bonus; `0.5 if p.shipping_fee_included
else 0.0` is truthy only on `some true`. -/
def deepScore (cfg : Config) (toks : List String) (p : ProductFull) : ℚ :=
  shallowScore cfg toks p.toProductShallow
    + (if p.shipping_fee_included = some true then 1 / 2 else 0)

/-- Python `sorted(l, key, reverse=True)`: the stable descending sort by
`key`, realised as insertion sort for the total preorder
`fun a b => key b ≤ key a`. -/
def sortDesc {α : Type} (key : α → ℚ) (l : List α) : List α :=
  @List.insertionSort α (fun a b => key b ≤ key a)
    (fun _ _ => inferInstance) l

/-- `asyncio.gather(*search_tasks, return_exceptions=False)` over the
per-candidate searches: results joined in task order, the first failure
propagated. -/
def gatherSearch {ε : Type} (f : SearchRequest → Except ε (List RawSearchItem)) :
    List SearchRequest → Except ε (List (List RawSearchItem))
  | [] => Except.ok []
  | r :: rs =>
    match f r with
    | Except.error e => Except.error e
    | Except.ok items =>
      match gatherSearch f rs with
      | Except.error e => Except.error e
      | Except.ok rest => Except.ok (items :: rest)

/-- `MercapiClient.enrich_item`: await `raw_item.full_item()`, catching every
exception and returning `None` on failure. -/
def enrichItem {ε : Type} (fullFetch : RawSearchItem → Except ε RawFullItem)
    (raw : RawSearchItem) : Option RawFullItem :=
  match fullFetch raw with
  | Except.ok r => some r
  | Except.error _ => none

/-- The dict lookup `raw_by_id[p.id]` where
`raw_by_id = {it.id_: it for it in raw_items}`; `raw_items` is deduplicated,
so first match equals the dict entry. -/
def lookupRaw (pool : List RawSearchItem) (i : String) : Option RawSearchItem :=
  pool.find? (fun it => it.id_ == i)

/-- Lines 144-158 of `recommend`: enrich each candidate whose id is still in
the raw pool (`enriched_raw`), then `zip` the results back with the
candidates and drop the `None`s (`continue` on failed enrichment). -/
def enrichMergeStage (enrich : RawSearchItem → Option RawFullItem)
    (pool : List RawSearchItem) (cands : List ProductShallow) :
    List ProductFull :=
  let enrichedRaw := (cands.filterMap (fun p => lookupRaw pool p.id)).map enrich
  (enrichedRaw.zip cands).filterMap
    (fun x => x.1.map (fun r => mergeFull r x.2))

/-- `RecommendationService.recommend`: guard on an empty request list, fan
out the searches (fail-fast barrier), pool and dedup, tokenize the combined
query text, parse/filter/score/sort shallow items, cut to the candidate cap,
enrich and merge, deep-rank, cut to the return cap. -/
def recommend {ε : Type} (search : SearchRequest → ℕ → Except ε (List RawSearchItem))
    (enrich : RawSearchItem → Option RawFullItem) (cfg : Config)
    (reqs : List SearchRequest) (user_query : String) :
    Except ε (List ProductFull) :=
  if reqs.isEmpty then Except.ok []
  else
    match gatherSearch (fun r => search r cfg.max_shallow) reqs with
    | Except.error e => Except.error e
    | Except.ok per =>
      let rawItems := dedupPool per
      let toks := tokenize (user_query ++ " " ++
        String.intercalate " " (reqs.map SearchRequest.query_text))
      let shallow := rawItems.map parseShallow
      let filtered := shallow.filter (shouldInclude cfg)
      let scored := sortDesc (shallowScore cfg toks) filtered
      let cands := scored.take cfg.max_candidates
      let enriched := enrichMergeStage enrich rawItems cands
      let ranked := sortDesc (deepScore cfg toks) enriched
      Except.ok (ranked.take cfg.max_return)

/-- The claim's price-score formula, written from the spec's words
(§4.3 / §8 of the spec): `0` if no global max price is configured, else
`max(0, 1 - |price - target| / target)` with `target = max(1, 0.7 × max)`.
To be compared with `priceScore`, which is translated from the source. -/
def priceScoreFormula (maxPrice : Option ℤ) (price : ℤ) : ℚ :=
  match maxPrice with
  | none => 0
  | some m =>
    let target : ℚ := max 1 ((7 : ℚ) / 10 * (m : ℚ))
    max 0 (1 - |(price : ℚ) - target| / target)

/-- The candidate-validation loop of `MercariChatAgent.chat` (lines 172-190):
skip a payload whose `keywords` is not a string or strips to empty, otherwise
build a `SearchRequest` from it with the stripped keywords. -/
def buildSearchRequests : List CandidatePayload → List SearchRequest
  | [] => []
  | c :: rest =>
    match c.keywords with
    | none => buildSearchRequests rest
    | some k =>
      if pyStrip k = "" then buildSearchRequests rest
      else
        { query_text := pyStrip k
          min_price := c.min_price_jpy
          max_price := c.max_price_jpy
          shipping_preference := c.shipping_preference
          location := c.location
          brand := c.brand } :: buildSearchRequests rest

/-! Concrete fixtures used by the witness theorems. -/

/-- A search function for the fail-fast witness: the request with query `"B"`
fails with error `7`, every other request succeeds with no results. -/
def c1search (req : SearchRequest) (_limit : ℕ) : Except ℕ (List RawSearchItem) :=
  if req.query_text = "B" then Except.error 7 else Except.ok []

/-- The failing request of the fail-fast witness. -/
def c1bad : SearchRequest := { query_text := "B" }

/-- Three candidate requests, the middle one failing. -/
def c1reqs : List SearchRequest :=
  [{ query_text := "A" }, c1bad, { query_text := "C" }]

/-- A raw search item with the given id (enrichment-isolation witness). -/
def c2raw (i : String) : RawSearchItem := { id_ := i, name := "itm", price := 100 }

/-- A search returning five raw items (five shallow survivors). -/
def c2search (_req : SearchRequest) (_limit : ℕ) : Except ℕ (List RawSearchItem) :=
  Except.ok [c2raw "a", c2raw "b", c2raw "c", c2raw "d", c2raw "e"]

/-- A fully-populated raw item with every optional sub-record absent. -/
def c2full : RawFullItem := {}

/-- Enrichment that fails for exactly the items `"b"` and `"d"`. -/
def c2enrich (r : RawSearchItem) : Option RawFullItem :=
  if r.id_ = "b" ∨ r.id_ = "d" then none else some c2full

/-- The single candidate request of the enrichment-isolation witness. -/
def c2req : SearchRequest := { query_text := "x" }

/-- The merged output item for pool id `i` in the enrichment-isolation
witness. -/
def c2out (i : String) : ProductFull := mergeFull c2full (parseShallow (c2raw i))

/-- Pooled per-candidate results for the dedup witness: id `"a"` repeated
across candidates, one item with a falsy id. -/
def c3pool : List (List RawSearchItem) :=
  [[{ id_ := "a", name := "first a", price := 1 },
    { id_ := "", name := "no id", price := 2 },
    { id_ := "a", name := "second a", price := 3 }],
   [{ id_ := "b", name := "b", price := 4 },
    { id_ := "a", name := "third a", price := 5 }]]

/-- An item with an absent item-type tag (C4 counterexample). -/
def c4item : ProductShallow := { id := "x", name := "x", price_jpy := 100 }

/-- An item with the canonical tag, used to instantiate C4's amended claim. -/
def c4mercari : ProductShallow :=
  { id := "y", name := "y", price_jpy := 100, item_type := some "ITEM_TYPE_MERCARI" }

/-- Price-floor witness: a 1000 JPY on-marketplace item. -/
def c5item1000 : ProductShallow :=
  { id := "p1", name := "p1", price_jpy := 1000, item_type := some "ITEM_TYPE_MERCARI" }

/-- Price-floor witness: a 6000 JPY on-marketplace item. -/
def c5item6000 : ProductShallow :=
  { id := "p6", name := "p6", price_jpy := 6000, item_type := some "ITEM_TYPE_MERCARI" }

/-- Configuration with a global max price of 20000 JPY. -/
def c5cfg : Config := { max_price_jpy := some 20000 }

/-- Configuration with a global max price of 10001 JPY (not divisible by 4),
separating the exact floor 0.25 × 10001 = 2500.25 from the code's truncated
floor int(10001 × 0.25) = 2500. -/
def c5cfg10001 : Config := { max_price_jpy := some 10001 }

/-- A 2500 JPY on-marketplace item: strictly below the exact quarter-of-max
floor at max price 10001, but not below the truncated floor. -/
def c5item2500 : ProductShallow :=
  { id := "p25", name := "p25", price_jpy := 2500, item_type := some "ITEM_TYPE_MERCARI" }

/-- An item priced at 1 JPY (C6 counterexample input). -/
def c6item1 : ProductShallow := { id := "q", name := "q", price_jpy := 1 }

/-- An item priced at 7000 JPY. -/
def c6item7000 : ProductShallow := { id := "q7", name := "q7", price_jpy := 7000 }

/-- An item priced at 14000 JPY. -/
def c6item14000 : ProductShallow := { id := "q14", name := "q14", price_jpy := 14000 }

/-- Configuration with a global max price of 10000 JPY. -/
def c6cfg : Config := { max_price_jpy := some 10000 }

/-- A merged full item (C7 witness base); its two shipping variants are
compared in the ranking. -/
def c7base : ProductFull :=
  { id := "s", name := "s", price_jpy := 500, shipping_fee_included := none }

/-- A malformed candidate payload: whitespace-only keywords. -/
def c8mal : CandidatePayload := { keywords := some "   " }

/-- A well-formed candidate payload. -/
def c8good : CandidatePayload := { keywords := some " ps5 " }

/-- Configuration with a positive minimum seller rating (C10 witness). -/
def c10cfg : Config := { min_seller_rating := 1 / 2 }

/-- A raw item whose seller on Mercari in fact has a high rating; the shallow
parse still yields `seller_rating = none` (C10 witness). -/
def c10raw : RawSearchItem :=
  { id_ := "r", name := "r", price := 100, item_type := some "ITEM_TYPE_MERCARI" }

/-- A search returning the single raw item `c10raw` (C10 witness). -/
def c10search (_req : SearchRequest) (_limit : ℕ) : Except ℕ (List RawSearchItem) :=
  Except.ok [c10raw]

/-! ## Helper lemmas -/

theorem gatherSearch_error_of_mem {ε : Type}
    (f : SearchRequest → Except ε (List RawSearchItem)) :
    ∀ (reqs : List SearchRequest) (r : SearchRequest) (e : ε), r ∈ reqs →
      f r = Except.error e → (∀ x ∈ reqs, x ≠ r → (f x).isOk) →
      gatherSearch f reqs = Except.error e := by
  intro reqs
  induction reqs with
  | nil => intro r e hr _ _; cases hr
  | cons a rs ih =>
    intro r e hr he hok
    by_cases har : a = r
    · subst har
      simp [gatherSearch, he]
    · have ha : (f a).isOk := hok a (List.mem_cons_self a rs) har
      obtain ⟨v, hv⟩ : ∃ v, f a = Except.ok v := by
        cases hfa : f a with
        | ok v => exact ⟨v, rfl⟩
        | error e2 =>
          rw [hfa] at ha
          exact absurd ha (by simp [Except.isOk, Except.toBool])
      have hr2 : r ∈ rs := by
        cases List.mem_cons.mp hr with
        | inl h => exact absurd h.symm har
        | inr h => exact h
      simp [gatherSearch, hv,
        ih r e hr2 he (fun x hx hxr => hok x (List.mem_cons_of_mem a hx) hxr)]

theorem gatherSearch_error_exists {ε : Type}
    (f : SearchRequest → Except ε (List RawSearchItem)) :
    ∀ (reqs : List SearchRequest) (r : SearchRequest) (e : ε), r ∈ reqs →
      f r = Except.error e → ∃ e2, gatherSearch f reqs = Except.error e2 := by
  intro reqs
  induction reqs with
  | nil => intro r e hr _; cases hr
  | cons a rs ih =>
    intro r e hr he
    cases hfa : f a with
    | error e2 => exact ⟨e2, by simp [gatherSearch, hfa]⟩
    | ok v =>
      have hr2 : r ∈ rs := by
        cases List.mem_cons.mp hr with
        | inl h => rw [← h, he] at hfa; exact Except.noConfusion hfa
        | inr h => exact h
      obtain ⟨e2, h2⟩ := ih r e hr2 he
      exact ⟨e2, by simp [gatherSearch, hfa, h2]⟩

theorem dedupRaw_spec :
    ∀ (xs : List RawSearchItem) (seen : List String),
      (∀ y ∈ dedupRaw seen xs, y.id_ ≠ "" ∧ y.id_ ∉ seen ∧
        xs.find? (fun z => z.id_ == y.id_) = some y) ∧
      ((dedupRaw seen xs).map RawSearchItem.id_).Nodup ∧
      (dedupRaw seen xs).Sublist xs ∧
      (∀ x ∈ xs, x.id_ ≠ "" → x.id_ ∉ seen →
        ∃ y ∈ dedupRaw seen xs, y.id_ = x.id_) := by
  intro xs
  induction xs with
  | nil => intro seen; simp [dedupRaw]
  | cons x xs ih =>
    intro seen
    by_cases hx : x.id_ = "" ∨ x.id_ ∈ seen
    · have hstep : dedupRaw seen (x :: xs) = dedupRaw seen xs := by
        rw [dedupRaw, if_pos hx]
      obtain ⟨h1, h2, h3, h4⟩ := ih seen
      rw [hstep]
      refine ⟨?_, h2, h3.cons x, ?_⟩
      · intro y hy
        obtain ⟨hy1, hy2, hyf⟩ := h1 y hy
        have hne : x.id_ ≠ y.id_ := by
          intro hxy
          cases hx with
          | inl h => exact hy1 (hxy ▸ h)
          | inr h => exact hy2 (hxy ▸ h)
        refine ⟨hy1, hy2, ?_⟩
        rw [List.find?_cons_of_neg xs (by simp [hne]), hyf]
      · intro z hz hz1 hz2
        cases List.mem_cons.mp hz with
        | inl hzx =>
          cases hx with
          | inl h => exact absurd h (hzx ▸ hz1)
          | inr h => exact absurd h (hzx ▸ hz2)
        | inr hzs => exact h4 z hzs hz1 hz2
    · push_neg at hx
      obtain ⟨hx1, hx2⟩ := hx
      have hstep : dedupRaw seen (x :: xs) = x :: dedupRaw (x.id_ :: seen) xs := by
        rw [dedupRaw, if_neg]
        push_neg
        exact ⟨hx1, hx2⟩
      obtain ⟨h1, h2, h3, h4⟩ := ih (x.id_ :: seen)
      rw [hstep]
      refine ⟨?_, ?_, h3.cons₂ x, ?_⟩
      · intro y hy
        cases List.mem_cons.mp hy with
        | inl hyx =>
          rw [hyx]
          exact ⟨hx1, hx2, by rw [List.find?_cons_of_pos xs (by simp)]⟩
        | inr hys =>
          obtain ⟨hy1, hy2, hyf⟩ := h1 y hys
          simp only [List.mem_cons, not_or] at hy2
          have hne : x.id_ ≠ y.id_ := fun hxy => hy2.1 hxy.symm
          refine ⟨hy1, hy2.2, ?_⟩
          rw [List.find?_cons_of_neg xs (by simp [hne]), hyf]
      · simp only [List.map_cons, List.nodup_cons]
        refine ⟨?_, h2⟩
        intro hmem
        obtain ⟨y, hy, hyid⟩ := List.mem_map.mp hmem
        obtain ⟨_, hy2, _⟩ := h1 y hy
        exact hy2 (by rw [hyid]; exact List.mem_cons_self _ _)
      · intro z hz hz1 hz2
        cases List.mem_cons.mp hz with
        | inl hzx => exact ⟨x, List.mem_cons_self _ _, by rw [hzx]⟩
        | inr hzs =>
          by_cases hzx : z.id_ = x.id_
          · exact ⟨x, List.mem_cons_self _ _, hzx.symm⟩
          · have : z.id_ ∉ x.id_ :: seen := by
              simp only [List.mem_cons, not_or]
              exact ⟨hzx, hz2⟩
            obtain ⟨y, hy, hyid⟩ := h4 z hzs hz1 this
            exact ⟨y, List.mem_cons_of_mem x hy, hyid⟩

/-! ## Claims -/

/-- C9: `recommend` called with an empty candidate list returns the empty
list without raising; the result is `Except.ok []` uniformly in the search
and enrichment functions, so neither Client Boundary operation can influence
(or be needed for) the outcome. -/
theorem recommend_empty_input {ε : Type}
    (search : SearchRequest → ℕ → Except ε (List RawSearchItem))
    (enrich : RawSearchItem → Option RawFullItem) (cfg : Config) (uq : String) :
    recommend search enrich cfg [] uq = Except.ok [] := rfl

/-- C1: fail-fast — if any single candidate's search raises, the whole
`recommend` call raises and produces no ranking (results from other
candidates are discarded rather than returned); moreover when every other
candidate's search succeeds, the propagated error is exactly the failing
candidate's error. -/
theorem recommend_fail_fast {ε : Type}
    (search : SearchRequest → ℕ → Except ε (List RawSearchItem))
    (enrich : RawSearchItem → Option RawFullItem) (cfg : Config)
    (reqs : List SearchRequest) (uq : String) (r : SearchRequest) (e : ε)
    (hr : r ∈ reqs) (he : search r cfg.max_shallow = Except.error e) :
    (∃ e2, recommend search enrich cfg reqs uq = Except.error e2) ∧
    ((∀ x ∈ reqs, x ≠ r → (search x cfg.max_shallow).isOk) →
      recommend search enrich cfg reqs uq = Except.error e) := by
  cases reqs with
  | nil => cases hr
  | cons a rs =>
    constructor
    · obtain ⟨e2, h2⟩ := gatherSearch_error_exists
        (fun x => search x cfg.max_shallow) (a :: rs) r e hr he
      exact ⟨e2, by simp [recommend, h2]⟩
    · intro hok
      have h := gatherSearch_error_of_mem
        (fun x => search x cfg.max_shallow) (a :: rs) r e hr he hok
      simp [recommend, h]

/-- Witness for C1: three concrete candidates of which the second fails with
error `7`; `recommend` fails with error `7` and yields no ranking. -/
theorem recommend_fail_fast_witness :
    c1bad ∈ c1reqs ∧ c1search c1bad 120 = Except.error 7 ∧
    ((∃ e2, recommend c1search (fun _ => none) {} c1reqs "q" = Except.error e2) ∧
     ((∀ x ∈ c1reqs, x ≠ c1bad → (c1search x 120).isOk) →
       recommend c1search (fun _ => none) {} c1reqs "q" = Except.error 7)) :=
  ⟨by decide, rfl,
    recommend_fail_fast c1search (fun _ => none) {} c1reqs "q" c1bad 7
      (by decide) rfl⟩

/-- C3: the deduplicated pool has pairwise-distinct identifiers (each id
exactly once), is a sublist of the flattened per-candidate results (so
first-seen order is preserved: candidate order, then within-candidate
order), every kept item is the first item of the flattened pool bearing its
identifier, and every identifier occurring in the pool is represented. -/
theorem dedupPool_spec (per : List (List RawSearchItem)) :
    ((dedupPool per).map RawSearchItem.id_).Nodup ∧
    (dedupPool per).Sublist per.flatten ∧
    (∀ y ∈ dedupPool per, y.id_ ≠ "" ∧
      per.flatten.find? (fun z => z.id_ == y.id_) = some y) ∧
    (∀ x ∈ per.flatten, x.id_ ≠ "" → ∃ y ∈ dedupPool per, y.id_ = x.id_) := by
  obtain ⟨h1, h2, h3, h4⟩ := dedupRaw_spec per.flatten []
  exact ⟨h2, h3, fun y hy => ⟨(h1 y hy).1, (h1 y hy).2.2⟩,
    fun x hx hid => h4 x hx hid (List.not_mem_nil _)⟩

/-- Witness for C3 at a concrete pool with a repeated identifier across
candidates and an item with a falsy identifier. -/
theorem dedupPool_spec_witness :
    ((dedupPool c3pool).map RawSearchItem.id_).Nodup ∧
    (dedupPool c3pool).Sublist c3pool.flatten ∧
    (∀ y ∈ dedupPool c3pool, y.id_ ≠ "" ∧
      c3pool.flatten.find? (fun z => z.id_ == y.id_) = some y) ∧
    (∀ x ∈ c3pool.flatten, x.id_ ≠ "" → ∃ y ∈ dedupPool c3pool, y.id_ = x.id_) :=
  dedupPool_spec c3pool

/-- C4 counterexample: `c4item` has an absent item-type tag (`None`), yet it
passes `_should_include` (so it is scored rather than dropped): the guard
`if p.item_type and p.item_type != "ITEM_TYPE_MERCARI"` is skipped entirely
for a falsy tag.  This refutes the claim that an item whose item-type tag is
absent is dropped and never scored. -/
theorem shouldInclude_absent_type_cex :
    c4item.item_type = none ∧ shouldInclude {} c4item = true :=
  ⟨rfl, by decide⟩

/-- C4 (amended): an item survives the item-type hard filter only if its tag
is absent, empty, or equals the canonical `"ITEM_TYPE_MERCARI"`; an item
whose tag is any other non-empty string is dropped and never scored. -/
theorem shouldInclude_item_type_filter (cfg : Config) (p : ProductShallow) :
    (shouldInclude cfg p = true →
      p.item_type = none ∨ p.item_type = some "" ∨
        p.item_type = some "ITEM_TYPE_MERCARI") ∧
    (∀ t : String, t ≠ "" → t ≠ "ITEM_TYPE_MERCARI" →
      shouldInclude cfg { p with item_type := some t } = false) := by
  constructor
  · intro h
    by_cases hc : p.item_type.getD "" ≠ "" ∧ p.item_type.getD "" ≠ "ITEM_TYPE_MERCARI"
    · rw [shouldInclude, if_pos hc] at h
      exact Bool.noConfusion h
    · push_neg at hc
      cases hp : p.item_type with
      | none => exact Or.inl rfl
      | some t =>
        rw [hp] at hc
        simp only [Option.getD_some] at hc
        by_cases ht : t = ""
        · exact Or.inr (Or.inl (by rw [← ht]))
        · exact Or.inr (Or.inr (by rw [← hc ht]))
  · intro t ht1 ht2
    have hc : ({ p with item_type := some t } : ProductShallow).item_type.getD "" ≠ "" ∧
        ({ p with item_type := some t } : ProductShallow).item_type.getD "" ≠
          "ITEM_TYPE_MERCARI" := by
      simpa using ⟨ht1, ht2⟩
    rw [shouldInclude, if_pos hc]

/-- Witness for C4's amended theorem: a concrete non-listing tag is dropped,
and the surviving concrete item's tag is the canonical one. -/
theorem shouldInclude_item_type_filter_witness :
    shouldInclude {} { c4mercari with item_type := some "OTHER" } = false ∧
    (shouldInclude {} c4mercari = true →
      c4mercari.item_type = none ∨ c4mercari.item_type = some "" ∨
        c4mercari.item_type = some "ITEM_TYPE_MERCARI") :=
  ⟨(shouldInclude_item_type_filter {} c4mercari).2 "OTHER" (by decide) (by decide),
   (shouldInclude_item_type_filter {} c4mercari).1⟩

/-- C5 counterexample: at a configured global max price of 10001 JPY, the
claimed exact floor max(500, 0.25 × 10001) = 2500.25 makes an item priced
2500 JPY "strictly below the floor", so the claim says it is dropped — but
the code truncates the floor to an integer (`int(self.max_price_jpy * 0.25)`
= 2500) and the strict comparison 2500 < 2500 fails, so `_should_include`
retains the item.  The claim as stated is false whenever the configured max
is not divisible by 4. -/
theorem shouldInclude_price_floor_cex :
    (2500 : ℚ) < max 500 (1 / 4 * 10001) ∧
    shouldInclude c5cfg10001 c5item2500 = true := by
  constructor
  · rw [lt_max_iff]
    right
    norm_num
  · decide

/-- C5 (amended): when the global max price is configured and at least
10000 JPY, a price floor of max(500, int(0.25 × max price)) — the quarter of
the max price truncated to an integer, i.e. max(500, max_price / 4) in
integer division — is enforced, and any item priced strictly below it is
dropped; concretely at max price 20000 (floor 5000) a 1000 JPY item is
dropped while a 6000 JPY on-marketplace item survives the filters. -/
theorem shouldInclude_price_floor (cfg : Config) (m : ℤ) (p : ProductShallow)
    (hm : cfg.max_price_jpy = some m) (h10 : 10000 ≤ m)
    (hlow : p.price_jpy < max 500 (m / 4)) :
    shouldInclude cfg p = false ∧
    shouldInclude c5cfg c5item1000 = false ∧
    shouldInclude c5cfg c5item6000 = true := by
  refine ⟨?_, by decide, by decide⟩
  simp only [shouldInclude, hm, Option.getD_some]
  split
  · rfl
  split
  · rfl
  split
  · rfl
  rename_i h3
  exact absurd ⟨by omega, h10, hlow⟩ h3

/-- Witness for C5 at the concrete configuration of the claim. -/
theorem shouldInclude_price_floor_witness :
    c5cfg.max_price_jpy = some 20000 ∧ (10000 : ℤ) ≤ 20000 ∧
    c5item1000.price_jpy < max 500 (20000 / 4) ∧
    (shouldInclude c5cfg c5item1000 = false ∧
     shouldInclude c5cfg c5item1000 = false ∧
     shouldInclude c5cfg c5item6000 = true) :=
  ⟨rfl, by decide, by decide,
    shouldInclude_price_floor c5cfg 20000 c5item1000 rfl (by decide) (by decide)⟩

/-- C6 counterexample: with the global max price configured as 0 JPY, Python
falsiness (`if not self.max_price_jpy`) makes `_price_score` return 0 before
reaching the formula, while the claimed formula gives target = max(1, 0) = 1
and score max(0, 1 - |1 - 1|/1) = 1 for an item priced 1 JPY.  So the claim
"price_score is 0 when no global max price is configured, and otherwise
equals the formula" is false at a configured max price of 0. -/
theorem priceScore_zero_max_cex :
    priceScore { max_price_jpy := some 0 } c6item1 = 0 ∧
    priceScoreFormula (some 0) c6item1.price_jpy = 1 := by
  constructor
  · rfl
  · show priceScoreFormula (some 0) 1 = 1
    rw [priceScoreFormula]
    norm_num

/-- C6 (amended): price score is 0 when the global max price is unset or
configured as 0 (Python falsiness); for any configured nonzero max price `m`
it equals `max(0, 1 - |price - target| / target)` with
`target = max(1, 0.7 × m)`.  With max price 10000 (target 7000) an item
priced 7000 scores 1 and an item priced 14000 scores 0 (clipped). -/
theorem priceScore_spec (cfg : Config) (p : ProductShallow) :
    (cfg.max_price_jpy.getD 0 = 0 → priceScore cfg p = 0) ∧
    (∀ m : ℤ, cfg.max_price_jpy = some m → m ≠ 0 →
      priceScore cfg p = priceScoreFormula (some m) p.price_jpy) ∧
    priceScore c6cfg c6item7000 = 1 ∧
    priceScore c6cfg c6item14000 = 0 := by
  have htarget : max (1 : ℚ) (7 / 10 * ((10000 : ℤ) : ℚ)) = 7000 := by
    rw [max_eq_right (by norm_num)]
    norm_num
  refine ⟨?_, ?_, ?_, ?_⟩
  · intro h
    rw [priceScore, if_pos h]
  · intro m hm hm0
    rw [priceScore, if_neg (by rw [hm]; simpa using hm0), priceScoreFormula, hm]
    simp only [Option.getD_some]
  · rw [priceScore, if_neg (by norm_num [c6cfg])]
    show max 0 (1 - |((c6item7000.price_jpy : ℚ)) -
        max 1 (7 / 10 * ((c6cfg.max_price_jpy.getD 0 : ℤ) : ℚ))| /
      max 1 (7 / 10 * ((c6cfg.max_price_jpy.getD 0 : ℤ) : ℚ))) = 1
    norm_num [c6cfg, c6item7000, htarget]
  · rw [priceScore, if_neg (by norm_num [c6cfg])]
    show max 0 (1 - |((c6item14000.price_jpy : ℚ)) -
        max 1 (7 / 10 * ((c6cfg.max_price_jpy.getD 0 : ℤ) : ℚ))| /
      max 1 (7 / 10 * ((c6cfg.max_price_jpy.getD 0 : ℤ) : ℚ))) = 0
    norm_num [c6cfg, c6item14000, htarget]

/-- Witness for C6's amended theorem: both truthiness branches and both
concrete scores, at a configured max price of 10000. -/
theorem priceScore_spec_witness :
    c6cfg.max_price_jpy = some 10000 ∧ (10000 : ℤ) ≠ 0 ∧
    (priceScore c6cfg c6item7000 = priceScoreFormula (some 10000) c6item7000.price_jpy ∧
     priceScore c6cfg c6item7000 = 1 ∧
     priceScore c6cfg c6item14000 = 0) :=
  ⟨rfl, by decide,
    (priceScore_spec c6cfg c6item7000).2.1 10000 rfl (by decide),
    (priceScore_spec c6cfg c6item7000).2.2.1,
    (priceScore_spec c6cfg c6item7000).2.2.2⟩

/-- The final/shallow ranking is sorted: in `sortDesc key` output every
earlier element has a key at least as large as every later one. -/
theorem sortDesc_pairwise {α : Type} (key : α → ℚ) (l : List α) :
    (sortDesc key l).Pairwise (fun a b => key b ≤ key a) := by
  haveI : IsTotal α (fun a b => key b ≤ key a) :=
    ⟨fun a b => le_total (key b) (key a)⟩
  haveI : IsTrans α (fun a b => key b ≤ key a) :=
    ⟨fun _ _ _ h1 h2 => le_trans h2 h1⟩
  exact List.sorted_insertionSort (fun a b => key b ≤ key a) l

/-- A stable descending sort leaves a list with constant key unchanged. -/
theorem sortDesc_eq_self_of_const {α : Type} (key : α → ℚ) (c : ℚ) :
    ∀ l : List α, (∀ a ∈ l, key a = c) → sortDesc key l = l := by
  intro l
  induction l with
  | nil => intro _; rfl
  | cons a l ih =>
    intro h
    have hself : sortDesc key l = l := ih (fun b hb => h b (List.mem_cons_of_mem a hb))
    show List.orderedInsert _ a (sortDesc key l) = a :: l
    rw [hself]
    cases l with
    | nil => rfl
    | cons b bs =>
      rw [List.orderedInsert, if_pos]
      rw [h b (List.mem_cons_of_mem a (List.mem_cons_self b bs)),
        h a (List.mem_cons_self a _)]

/-- C7: the deep score of a merged item is its recomputed shallow score plus
0.5 exactly when shipping-fee-included is true; of two otherwise-identical
merged items the free-shipping variant scores exactly 0.5 more, the
two-element ranking puts it strictly ahead even when it started behind, and
no deep ranking of any pool ever places the non-free-shipping variant ahead
of the free-shipping one. -/
theorem deepScore_shipping_bonus (cfg : Config) (toks : List String)
    (p : ProductFull) :
    (∀ q : ProductFull, deepScore cfg toks q =
      shallowScore cfg toks q.toProductShallow +
        (if q.shipping_fee_included = some true then 1 / 2 else 0)) ∧
    deepScore cfg toks { p with shipping_fee_included := some true } =
      deepScore cfg toks { p with shipping_fee_included := some false } + 1 / 2 ∧
    sortDesc (deepScore cfg toks)
        [{ p with shipping_fee_included := some false },
         { p with shipping_fee_included := some true }] =
      [{ p with shipping_fee_included := some true },
       { p with shipping_fee_included := some false }] ∧
    ∀ l : List ProductFull,
      ¬ ([{ p with shipping_fee_included := some false },
          { p with shipping_fee_included := some true }].Sublist
            (sortDesc (deepScore cfg toks) l)) := by
  have hT : deepScore cfg toks { p with shipping_fee_included := some true } =
      shallowScore cfg toks p.toProductShallow + 1 / 2 := by
    simp [deepScore]
  have hF : deepScore cfg toks { p with shipping_fee_included := some false } =
      shallowScore cfg toks p.toProductShallow := by
    simp [deepScore]
  have hlt : ¬ (deepScore cfg toks { p with shipping_fee_included := some true } ≤
      deepScore cfg toks { p with shipping_fee_included := some false }) := by
    rw [hT, hF]
    intro h
    linarith
  refine ⟨fun q => rfl, by rw [hT, hF], ?_, ?_⟩
  · simp only [sortDesc, List.insertionSort]
    rw [List.orderedInsert, List.orderedInsert, if_neg hlt, List.orderedInsert]
  · intro l hsub
    have hs := sortDesc_pairwise (deepScore cfg toks) l
    have hp2 := List.Pairwise.sublist hsub hs
    have hle := (List.pairwise_cons.mp hp2).1 _ (List.mem_cons_self _ _)
    exact hlt hle

/-- Witness for C7 at a concrete merged item and configuration. -/
theorem deepScore_shipping_bonus_witness :
    deepScore {} [] { c7base with shipping_fee_included := some true } =
      deepScore {} [] { c7base with shipping_fee_included := some false } + 1 / 2 ∧
    sortDesc (deepScore {} [])
        [{ c7base with shipping_fee_included := some false },
         { c7base with shipping_fee_included := some true }] =
      [{ c7base with shipping_fee_included := some true },
       { c7base with shipping_fee_included := some false }] :=
  ⟨(deepScore_shipping_bonus {} [] c7base).2.1,
   (deepScore_shipping_bonus {} [] c7base).2.2.1⟩

/-- Skipping behaviour of request building: a payload with no (string)
keywords contributes nothing. -/
theorem buildSearchRequests_cons_none (c : CandidatePayload)
    (cs : List CandidatePayload) (h : c.keywords = none) :
    buildSearchRequests (c :: cs) = buildSearchRequests cs := by
  rw [buildSearchRequests, h]

/-- Skipping behaviour of request building: a payload whose keywords strip
to the empty string contributes nothing. -/
theorem buildSearchRequests_cons_blank (c : CandidatePayload)
    (cs : List CandidatePayload) (k : String) (h : c.keywords = some k)
    (hk : pyStrip k = "") :
    buildSearchRequests (c :: cs) = buildSearchRequests cs := by
  rw [buildSearchRequests, h]
  simp [hk]

/-- A payload with valid keywords contributes one request with the stripped
keywords as query text. -/
theorem buildSearchRequests_cons_ok (c : CandidatePayload)
    (cs : List CandidatePayload) (k : String) (h : c.keywords = some k)
    (hk : pyStrip k ≠ "") :
    buildSearchRequests (c :: cs) =
      { query_text := pyStrip k, min_price := c.min_price_jpy,
        max_price := c.max_price_jpy,
        shipping_preference := c.shipping_preference,
        location := c.location, brand := c.brand } :: buildSearchRequests cs := by
  rw [buildSearchRequests, h]
  simp [hk]

/-- C8: a candidate whose query text is not a string, or is empty or
whitespace-only after stripping, is skipped silently before the search
fan-out: it contributes no search request wherever it sits in the candidate
list, every request that is built carries a nonempty query text, and the
whole pipeline behaves exactly as if the malformed candidate were absent
(in particular no search is issued for it and no error is raised - request
building and `recommend` are total on such inputs). -/
theorem malformed_candidate_skipped (c : CandidatePayload)
    (hc : c.keywords = none ∨ ∃ k, c.keywords = some k ∧ pyStrip k = "")
    (pre post : List CandidatePayload) :
    buildSearchRequests (pre ++ c :: post) = buildSearchRequests (pre ++ post) ∧
    (∀ cs : List CandidatePayload, ∀ r ∈ buildSearchRequests cs,
      r.query_text ≠ "") ∧
    (∀ (ε : Type) (search : SearchRequest → ℕ → Except ε (List RawSearchItem))
      (enrich : RawSearchItem → Option RawFullItem) (cfg : Config) (uq : String),
      recommend search enrich cfg (buildSearchRequests (pre ++ c :: post)) uq =
        recommend search enrich cfg (buildSearchRequests (pre ++ post)) uq) := by
  have hskip : ∀ post2, buildSearchRequests (c :: post2) = buildSearchRequests post2 := by
    intro post2
    rcases hc with h | ⟨k, hk, hks⟩
    · exact buildSearchRequests_cons_none c post2 h
    · exact buildSearchRequests_cons_blank c post2 k hk hks
  have h1 : buildSearchRequests (pre ++ c :: post) = buildSearchRequests (pre ++ post) := by
    induction pre with
    | nil => exact hskip post
    | cons a pre ih =>
      simp only [List.cons_append]
      cases ha : a.keywords with
      | none =>
        rw [buildSearchRequests_cons_none a _ ha, buildSearchRequests_cons_none a _ ha]
        exact ih
      | some k =>
        by_cases hks : pyStrip k = ""
        · rw [buildSearchRequests_cons_blank a _ k ha hks,
            buildSearchRequests_cons_blank a _ k ha hks]
          exact ih
        · rw [buildSearchRequests_cons_ok a _ k ha hks,
            buildSearchRequests_cons_ok a _ k ha hks, ih]
  refine ⟨h1, ?_, fun ε search enrich cfg uq => by rw [h1]⟩
  intro cs
  induction cs with
  | nil => intro r hr; exact absurd hr (List.not_mem_nil r)
  | cons a cs ih =>
    intro r hr
    cases ha : a.keywords with
    | none =>
      rw [buildSearchRequests_cons_none a cs ha] at hr
      exact ih r hr
    | some k =>
      by_cases hks : pyStrip k = ""
      · rw [buildSearchRequests_cons_blank a cs k ha hks] at hr
        exact ih r hr
      · rw [buildSearchRequests_cons_ok a cs k ha hks] at hr
        cases List.mem_cons.mp hr with
        | inl h => rw [h]; exact hks
        | inr h => exact ih r h

/-- Witness for C8: a whitespace-only candidate between two positions is
skipped, and the pipeline result is unchanged by its presence. -/
theorem malformed_candidate_skipped_witness :
    (c8mal.keywords = none ∨ ∃ k, c8mal.keywords = some k ∧ pyStrip k = "") ∧
    (buildSearchRequests ([c8good] ++ c8mal :: []) =
        buildSearchRequests ([c8good] ++ []) ∧
     (∀ cs : List CandidatePayload, ∀ r ∈ buildSearchRequests cs,
       r.query_text ≠ "") ∧
     (∀ (ε : Type) (search : SearchRequest → ℕ → Except ε (List RawSearchItem))
       (enrich : RawSearchItem → Option RawFullItem) (cfg : Config) (uq : String),
       recommend search enrich cfg (buildSearchRequests ([c8good] ++ c8mal :: [])) uq =
         recommend search enrich cfg (buildSearchRequests ([c8good] ++ [])) uq)) :=
  ⟨Or.inr ⟨"   ", rfl, by decide⟩,
   malformed_candidate_skipped c8mal (Or.inr ⟨"   ", rfl, by decide⟩) [c8good] []⟩

/-- If the search barrier succeeds, `recommend` returns `ok` (never an
error): enrichment failures cannot raise. -/
theorem recommend_ok_of_gather_ok {ε : Type}
    (search : SearchRequest → ℕ → Except ε (List RawSearchItem))
    (enrich : RawSearchItem → Option RawFullItem) (cfg : Config)
    (reqs : List SearchRequest) (uq : String) (per : List (List RawSearchItem))
    (h : gatherSearch (fun r => search r cfg.max_shallow) reqs = Except.ok per) :
    ∃ l, recommend search enrich cfg reqs uq = Except.ok l := by
  cases reqs with
  | nil => exact ⟨[], rfl⟩
  | cons a rs =>
    unfold recommend
    rw [if_neg (by simp), h]
    exact ⟨_, rfl⟩

/-- C10: the shallow parse always sets seller_rating to None, so the rating
term of every shallow score vanishes and the shallow rating filter compares
the default 0 against the configured minimum; in particular with a minimum
seller rating strictly above 0 every parsed item is dropped before
enrichment, and `recommend` returns the empty list whenever the searches
succeed, regardless of the items. -/
theorem shallow_rating_always_none (cfg : Config)
    (hmin : 0 < cfg.min_seller_rating) :
    (∀ raw : RawSearchItem, (parseShallow raw).seller_rating = none) ∧
    (∀ (raw : RawSearchItem) (toks : List String),
      shallowScore cfg toks (parseShallow raw) =
        relevanceScore toks (parseShallow raw) * 4 +
          priceScore cfg (parseShallow raw) * (13 / 10)) ∧
    (∀ raw : RawSearchItem, shouldInclude cfg (parseShallow raw) = false) ∧
    (∀ (ε : Type) (search : SearchRequest → ℕ → Except ε (List RawSearchItem))
      (enrich : RawSearchItem → Option RawFullItem) (reqs : List SearchRequest)
      (uq : String) (per : List (List RawSearchItem)),
      gatherSearch (fun r => search r cfg.max_shallow) reqs = Except.ok per →
      recommend search enrich cfg reqs uq = Except.ok []) := by
  have hinc : ∀ raw : RawSearchItem, shouldInclude cfg (parseShallow raw) = false := by
    intro raw
    rw [shouldInclude]
    split
    · rfl
    split
    · rfl
    split
    · rfl
    rw [if_pos (by simpa [parseShallow] using hmin)]
  refine ⟨fun raw => rfl, ?_, hinc, ?_⟩
  · intro raw toks
    rw [shallowScore]
    simp [parseShallow]
  · intro ε search enrich reqs uq per hper
    cases reqs with
    | nil => rfl
    | cons a rs =>
      have hfilter : ∀ raws : List RawSearchItem,
          (raws.map parseShallow).filter (fun p => shouldInclude cfg p) = [] := by
        intro raws
        rw [List.filter_eq_nil_iff]
        intro p hp
        obtain ⟨raw, _, hpr⟩ := List.mem_map.mp hp
        rw [← hpr]
        simp [hinc raw]
      unfold recommend
      rw [if_neg (by simp), hper]
      show Except.ok ((sortDesc _ (enrichMergeStage enrich _
    (List.take cfg.max_candidates (sortDesc _ ((List.map parseShallow
      (dedupPool per)).filter (fun p => shouldInclude cfg p)))))).take cfg.max_return) = _
      rw [hfilter (dedupPool per)]
      simp [sortDesc, List.insertionSort, enrichMergeStage]

/-- Witness for C10: a concrete positive rating floor, a concrete raw item,
and a concrete `recommend` call returning the empty ranking. -/
theorem shallow_rating_always_none_witness :
    (0 : ℚ) < c10cfg.min_seller_rating ∧
    ((parseShallow c10raw).seller_rating = none ∧
     shouldInclude c10cfg (parseShallow c10raw) = false ∧
     recommend c10search (fun _ => some c2full) c10cfg [c2req] "q" =
       Except.ok []) := by
  have h := shallow_rating_always_none c10cfg (by norm_num [c10cfg])
  exact ⟨by norm_num [c10cfg], h.1 c10raw, h.2.2.1 c10raw,
    h.2.2.2 ℕ c10search (fun _ => some c2full) [c2req] "q" [[c10raw]] rfl⟩

/-- One step of the enrichment/merge stage when the candidate's id is found
in the raw pool: the head is kept iff its enrichment succeeds. -/
theorem enrichMergeStage_cons (enrich : RawSearchItem → Option RawFullItem)
    (pool : List RawSearchItem) (p : ProductShallow) (ps : List ProductShallow)
    (r : RawSearchItem) (hr : lookupRaw pool p.id = some r) :
    enrichMergeStage enrich pool (p :: ps) =
      (match enrich r with
       | some fr => mergeFull fr p :: enrichMergeStage enrich pool ps
       | none => enrichMergeStage enrich pool ps) := by
  simp only [enrichMergeStage, List.filterMap_cons, hr, List.map_cons,
    List.zip_cons_cons]
  cases enrich r with
  | none => simp
  | some fr => simp

/-- The enrichment/merge stage, when every candidate's id is still present
in the raw pool (which `recommend` guarantees, since candidates are parsed
from the deduplicated pool): the output is exactly the per-candidate
filterMap that merges each successfully enriched candidate and drops each
failed one, preserving order.  A failed enrichment therefore excludes that
item only. -/
theorem enrichMergeStage_filterMap (enrich : RawSearchItem → Option RawFullItem)
    (pool : List RawSearchItem) :
    ∀ cands : List ProductShallow,
      (∀ p ∈ cands, (lookupRaw pool p.id).isSome) →
      enrichMergeStage enrich pool cands =
        cands.filterMap (fun p => ((lookupRaw pool p.id).bind enrich).map
          (fun r => mergeFull r p)) := by
  intro cands
  induction cands with
  | nil => intro _; rfl
  | cons p ps ih =>
    intro h
    obtain ⟨r, hr⟩ := Option.isSome_iff_exists.mp (h p (List.mem_cons_self p ps))
    have htail := ih (fun q hq => h q (List.mem_cons_of_mem p hq))
    rw [enrichMergeStage_cons enrich pool p ps r hr, List.filterMap_cons]
    simp only [hr, Option.some_bind]
    cases henr : enrich r with
    | none => simpa [henr] using htail
    | some fr => simpa [henr] using htail

/-- C2: enrichment failures are isolated per item.  (1) `enrich_item` turns
any exception of the underlying detail fetch into `None`; (2) in the merge
stage (all candidate ids being present in the raw pool, as `recommend`
guarantees), each failed item is excluded while every successfully enriched
candidate is merged and kept in order; (3) a `recommend` call whose search
barrier succeeds never raises, whatever the enrichment function does;
(4) concretely, with 5 shallow survivors of which exactly the items "b" and
"d" fail enrichment, `recommend` returns the ranking of the remaining 3. -/
theorem enrichment_isolation :
    (∀ (ε : Type) (fullFetch : RawSearchItem → Except ε RawFullItem)
      (raw : RawSearchItem) (e : ε),
      fullFetch raw = Except.error e → enrichItem fullFetch raw = none) ∧
    (∀ (enrich : RawSearchItem → Option RawFullItem)
      (pool : List RawSearchItem) (cands : List ProductShallow),
      (∀ p ∈ cands, (lookupRaw pool p.id).isSome) →
      enrichMergeStage enrich pool cands =
        cands.filterMap (fun p => ((lookupRaw pool p.id).bind enrich).map
          (fun r => mergeFull r p))) ∧
    (∀ (ε : Type) (search : SearchRequest → ℕ → Except ε (List RawSearchItem))
      (enrich : RawSearchItem → Option RawFullItem) (cfg : Config)
      (reqs : List SearchRequest) (uq : String) (per : List (List RawSearchItem)),
      gatherSearch (fun r => search r cfg.max_shallow) reqs = Except.ok per →
      ∃ l, recommend search enrich cfg reqs uq = Except.ok l) ∧
    recommend c2search c2enrich {} [c2req] "x" =
      Except.ok [c2out "a", c2out "c", c2out "e"] := by
  refine ⟨?_, ?_, ?_, ?_⟩
  · intro ε fullFetch raw e h
    simp only [enrichItem, h]
  · intro enrich pool cands h
    exact enrichMergeStage_filterMap enrich pool cands h
  · intro ε search enrich cfg reqs uq per h
    exact recommend_ok_of_gather_ok search enrich cfg reqs uq per h
  · show Except.ok ((sortDesc (deepScore {} ["x"]) (enrichMergeStage c2enrich
        [c2raw "a", c2raw "b", c2raw "c", c2raw "d", c2raw "e"]
        ((sortDesc (shallowScore {} ["x"])
          [parseShallow (c2raw "a"), parseShallow (c2raw "b"), parseShallow (c2raw "c"),
           parseShallow (c2raw "d"), parseShallow (c2raw "e")]).take 60))).take 10) =
      Except.ok [c2out "a", c2out "c", c2out "e"]
    have hconstS : ∀ p ∈ [parseShallow (c2raw "a"), parseShallow (c2raw "b"),
        parseShallow (c2raw "c"), parseShallow (c2raw "d"), parseShallow (c2raw "e")],
        shallowScore {} ["x"] p = shallowScore {} ["x"] (parseShallow (c2raw "a")) := by
      intro p hp
      simp only [List.mem_cons, List.not_mem_nil, or_false] at hp
      rcases hp with rfl | rfl | rfl | rfl | rfl <;> rfl
    rw [sortDesc_eq_self_of_const (shallowScore {} ["x"])
      (shallowScore {} ["x"] (parseShallow (c2raw "a"))) _ hconstS]
    show Except.ok ((sortDesc (deepScore {} ["x"])
        [c2out "a", c2out "c", c2out "e"]).take 10) =
      Except.ok [c2out "a", c2out "c", c2out "e"]
    have hconstD : ∀ x ∈ [c2out "a", c2out "c", c2out "e"],
        deepScore {} ["x"] x = deepScore {} ["x"] (c2out "a") := by
      intro x hx
      simp only [List.mem_cons, List.not_mem_nil, or_false] at hx
      rcases hx with rfl | rfl | rfl <;> rfl
    rw [sortDesc_eq_self_of_const (deepScore {} ["x"])
      (deepScore {} ["x"] (c2out "a")) _ hconstD]
    rfl

/-- Witness for C2: a concrete failing fetch is turned into `none`, and the
concrete 5-survivor / 2-failure pipeline run returns the 3 enriched items. -/
theorem enrichment_isolation_witness :
    enrichItem (fun _ => Except.error (3 : ℕ)) (c2raw "b") = none ∧
    recommend c2search c2enrich {} [c2req] "x" =
      Except.ok [c2out "a", c2out "c", c2out "e"] :=
  ⟨enrichment_isolation.1 ℕ (fun _ => Except.error 3) (c2raw "b") 3 rfl,
   enrichment_isolation.2.2.2⟩
